import Mathlib

/-!
Verification of the pumapy PPMS-client response-parsing core.

This file gives a shallow embedding, in Lean 4, of the response
de-serialization layer of the `pumapy` repository
(`src/pumapy/ppms.py`, `src/pumapy/booking.py`, `resources/Objects.py`)
and proves properties of that embedding.

Conventions of the embedding:
  * Python strings are `List Char` internally (with `String` wrappers at
    the outermost API), so every function is executable and can be run on
    concrete response texts inside proofs by `decide` / `rfl`.
  * Fallible Python code (code that can raise `ValueError`, `KeyError`,
    `IndexError`, `AttributeError`, or a failed `assert`) is embedded with
    `Option`/`Except String`; the error strings name the Python exception
    being modelled, several distinct exception payload texts may be merged
    into one representative message.
  * `datetime.datetime` values are modelled by `Dt`: an abstract integer
    calendar-day index plus hour/minute/second/microsecond fields.  The
    source only ever replaces time-of-day fields and adds whole days or
    minutes, so no month/year structure is needed.
  * `re.sub` calls in the source use five fixed patterns (two literal
    boolean patterns and three digit patterns, the latter two anchored
    with `re.M`).  They are embedded as explicit one-pass, left-to-right,
    non-overlapping scanners, which is exactly the semantics of `re.sub`
    for these patterns (the patterns contain no constructs enabling
    backtracking into a different match shape, see the comments at each
    scanner).
  * Python `str.splitlines` is embedded for the line boundaries
    `"\n"`, `"\r"`, `"\r\n"` that PUMAPI responses use; the exotic
    unicode line boundaries Python also recognises do not occur in this
    problem domain and are out of the modelled scope.
-/

deriving instance DecidableEq for Except

set_option maxRecDepth 16000

namespace Pumapy

/-- PValue is the type of a value cell produced by the pumapy parsers: the
source keeps either a Python `str` or a Python `bool` in the dicts it
builds from response lines. -/
inductive PValue where
  | str (s : String)
  | bool (b : Bool)
deriving DecidableEq

/-- pvRepr embeds Python's `'%s' % value` formatting for the two value
shapes stored in a parsed dict (`str(True) = "True"`, `str(False) = "False"`). -/
def pvRepr : PValue → String
  | .str s => s
  | .bool true => "True"
  | .bool false => "False"

/-- PValue.isBoolB decides whether a parsed cell was coerced to a Python
boolean. -/
def PValue.isBoolB : PValue → Bool
  | .str _ => false
  | .bool _ => true

/-- isPySpace embeds the character class stripped by Python's
`str.strip()` (ASCII whitespace; the unicode whitespace Python would also
strip does not occur in PUMAPI headers). -/
def isPySpace (c : Char) : Bool :=
  c = ' ' || c = '\t' || c = '\n' || c = '\r' || c = '\x0b' || c = '\x0c'

/-- pyStrip embeds Python's `str.strip(chars)`: remove every leading and
every trailing character satisfying `p`. -/
def pyStrip (p : Char → Bool) (l : List Char) : List Char :=
  ((l.dropWhile p).reverse.dropWhile p).reverse

/-- stripQuotes embeds `value.strip('"')` as used by
`process_response_values` (ppms.py line 48). -/
def stripQuotes (l : List Char) : List Char :=
  pyStrip (fun c => c = '"') l

/-- pyStripWS embeds `value.strip()` as used on header fields
(ppms.py lines 514, 845, 959). -/
def pyStripWS (l : List Char) : List Char :=
  pyStrip isPySpace l

/-- natDigits folds an all-digit character list into its numeric value. -/
def natDigits (l : List Char) : Nat :=
  l.foldl (fun a c => a * 10 + (c.toNat - 48)) 0

/-- pyInt embeds Python's `int(string)` conversion for the inputs the
source feeds it (decimal literals with optional sign and surrounding
whitespace); a malformed literal raises `ValueError` in Python, giving
`none` here. -/
def pyInt (l : List Char) : Option Int :=
  match pyStripWS l with
  | '-' :: ds => if ds ≠ [] ∧ ds.all Char.isDigit then some (-(natDigits ds : Int)) else none
  | '+' :: ds => if ds ≠ [] ∧ ds.all Char.isDigit then some ((natDigits ds : Int)) else none
  | ds => if ds ≠ [] ∧ ds.all Char.isDigit then some ((natDigits ds : Int)) else none

/-- slGo is the worker of `pySplitlines`: `cur` is the reversed current
line; a line terminator (`\r\n`, `\r` or `\n`) closes the current line,
and a terminator at the very end of the input starts no further line. -/
def slGo (cur : List Char) : List Char → List (List Char)
  | [] => [cur.reverse]
  | '\r' :: '\n' :: rest => cur.reverse :: (match rest with | [] => [] | _ => slGo [] rest)
  | '\r' :: rest => cur.reverse :: (match rest with | [] => [] | _ => slGo [] rest)
  | '\n' :: rest => cur.reverse :: (match rest with | [] => [] | _ => slGo [] rest)
  | c :: rest => slGo (c :: cur) rest

/-- pySplitlines embeds Python's `text.splitlines()` for the line
boundaries `\n`, `\r\n` and `\r`: terminators are dropped, a trailing
terminator produces no extra empty line, and the empty string yields no
lines at all. -/
def pySplitlines (l : List Char) : List (List Char) :=
  match l with
  | [] => []
  | _ => slGo [] l

/-- splitChar embeds Python's `str.split(sep)` for a one-character
separator: every occurrence splits, empty fields are kept, and the empty
string yields one empty field. -/
def splitChar (sep : Char) : List Char → List (List Char)
  | [] => [[]]
  | c :: rest =>
      match splitChar sep rest with
      | [] => [[c]]
      | h :: t => if c = sep then [] :: h :: t else (c :: h) :: t

/-- joinChar joins segments with a one-character separator; it is the
inverse of `splitChar` and is used to embed the `re.M`-anchored
substitutions, which act independently on each `\n`-separated segment. -/
def joinChar (sep : Char) : List (List Char) → List Char
  | [] => []
  | [s] => s
  | s :: r :: t => s ++ sep :: joinChar sep (r :: t)

/-- splitQCQ embeds Python's `line.split('","')` on the three-character
separator quote-comma-quote, scanning left to right without overlap
(ppms.py lines 517, 848, 960). -/
def splitQCQ : List Char → List (List Char)
  | '"' :: ',' :: '"' :: rest =>
      match splitQCQ rest with
      | [] => [[], []]
      | h :: t => [] :: h :: t
  | c :: rest =>
      match splitQCQ rest with
      | [] => [[c]]
      | h :: t => (c :: h) :: t
  | [] => [[]]

/-- lowerAscii embeds the ASCII lower-casing that Python 2's
`re.IGNORECASE` applies when matching the literal patterns `,false` /
`,true`. -/
def lowerAscii (c : Char) : Char :=
  if 'A' ≤ c ∧ c ≤ 'Z' then Char.ofNat (c.toNat + 32) else c

/-- eqc compares a subject character with a lowercase pattern character,
optionally case-insensitively. -/
def eqc (ci : Bool) (a b : Char) : Bool :=
  if ci then lowerAscii a == b else a == b

/-- subCommaFalse embeds `re.sub(',false', repl, text)` (with `ci = true`
adding `re.IGNORECASE`): a single left-to-right pass replacing each
non-overlapping occurrence of a comma followed by the five letters of
`false` (ppms.py lines 505, 829, 950). -/
def subCommaFalse (ci : Bool) (repl : List Char) : List Char → List Char
  | ',' :: c1 :: c2 :: c3 :: c4 :: c5 :: rest =>
      if eqc ci c1 'f' && eqc ci c2 'a' && eqc ci c3 'l' && eqc ci c4 's' && eqc ci c5 'e' then
        repl ++ subCommaFalse ci repl rest
      else
        ',' :: subCommaFalse ci repl (c1 :: c2 :: c3 :: c4 :: c5 :: rest)
  | c :: rest => c :: subCommaFalse ci repl rest
  | [] => []

/-- subCommaTrue embeds `re.sub(',true', repl, text)` analogously
(ppms.py lines 506, 830, 951). -/
def subCommaTrue (ci : Bool) (repl : List Char) : List Char → List Char
  | ',' :: c1 :: c2 :: c3 :: c4 :: rest =>
      if eqc ci c1 't' && eqc ci c2 'r' && eqc ci c3 'u' && eqc ci c4 'e' then
        repl ++ subCommaTrue ci repl rest
      else
        ',' :: subCommaTrue ci repl (c1 :: c2 :: c3 :: c4 :: rest)
  | c :: rest => c :: subCommaTrue ci repl rest
  | [] => []

/-- sub1aux embeds `re.sub(r',(\d+),', r',"\g<1>",', text)` as a state
machine: the state `some ds` means a comma followed by the digit run `ds`
has been read and not yet emitted.  A match consumes its trailing comma
(`re.sub` continues scanning after the whole match), which is why of two
digit runs separated by a single comma only the first can match in one
pass.  Greedy `\d+` cannot backtrack usefully here because a shorter run
would have to be followed by a comma, yet every dropped character is a
digit (ppms.py lines 509, 835, 954). -/
def sub1aux : Option (List Char) → List Char → List Char
  | none, [] => []
  | none, c :: rest => if c = ',' then sub1aux (some []) rest else c :: sub1aux none rest
  | some ds, [] => ',' :: ds
  | some ds, c :: rest =>
      if c.isDigit then sub1aux (some (ds ++ [c])) rest
      else if c = ',' then
        if ds = [] then ',' :: sub1aux (some []) rest
        else ',' :: '"' :: ds ++ '"' :: ',' :: sub1aux none rest
      else ',' :: ds ++ c :: sub1aux none rest

/-- subMidDigits is `sub1aux` started in its scanning state. -/
def subMidDigits (l : List Char) : List Char :=
  sub1aux none l

/-- segStartHit decides whether `re.sub(r'^(\d+),', ...)` matches a given
`\n`-separated segment: a nonempty leading digit run directly followed by
a comma.  (`^` with `re.M` matches only at segment starts, so each
segment holds at most one match.) -/
def segStartHit (seg : List Char) : Bool :=
  !(seg.takeWhile Char.isDigit).isEmpty && ((seg.dropWhile Char.isDigit).head? == some ',')

/-- fixStart applies the replacement `"\g<1>",` of
`re.sub(r'^(\d+),', r'"\g<1>",', text, flags=re.M)` on one segment
(ppms.py lines 511, 837, 955). -/
def fixStart (seg : List Char) : List Char :=
  if segStartHit seg then
    '"' :: seg.takeWhile Char.isDigit ++ '"' :: seg.dropWhile Char.isDigit
  else seg

/-- segEndHit decides whether `re.sub(r',(\d+)$', ...)` matches a given
`\n`-separated segment: a nonempty trailing digit run directly preceded
by a comma.  (`$` with `re.M` matches only at segment ends; `\d+` must
reach the segment end, so the matched run is the maximal trailing digit
run.) -/
def segEndHit (seg : List Char) : Bool :=
  !(seg.reverse.takeWhile Char.isDigit).isEmpty &&
    ((seg.reverse.dropWhile Char.isDigit).head? == some ',')

/-- fixEnd applies the replacement `,"\g<1>"` of
`re.sub(r',(\d+)$', r',"\g<1>"', text, flags=re.M)` on one segment
(ppms.py lines 512, 838, 956). -/
def fixEnd (seg : List Char) : List Char :=
  if segEndHit seg then
    ('"' :: seg.reverse.takeWhile Char.isDigit ++ '"' :: seg.reverse.dropWhile Char.isDigit).reverse
  else seg

/-- subStartDigits embeds the `re.M`-anchored start-of-line digit quoting:
`^` matches at the start of the text and after every `\n`, so the
substitution acts independently on each `\n`-separated segment. -/
def subStartDigits (l : List Char) : List Char :=
  joinChar '\n' ((splitChar '\n' l).map fixStart)

/-- subEndDigits embeds the `re.M`-anchored end-of-line digit quoting
(`$` matches before every `\n` and at the end of the text). -/
def subEndDigits (l : List Char) : List Char :=
  joinChar '\n' ((splitChar '\n' l).map fixEnd)

/-- quoting_repair embeds the Quoting Repair sequence used by
`PpmsConnection.get_systems` (ppms.py lines 504-512) and, identically, by
`PpmsConnection.get_running_sheet` (lines 828-838): case-insensitive
boolean quoting to capitalized `"False"` / `"True"`, then the three digit
quoting substitutions. -/
def quoting_repair (l : List Char) : List Char :=
  subEndDigits (subStartDigits (subMidDigits
    (subCommaTrue true (",\"True\"").data (subCommaFalse true (",\"False\"").data l))))

/-- quoting_repair_str is `quoting_repair` on `String`. -/
def quoting_repair_str (text : String) : String :=
  ⟨quoting_repair text.data⟩

/-- quoting_repair_user embeds the variant used by
`PpmsConnection.get_ppms_user` (ppms.py lines 950-956): case-sensitive
boolean quoting to lowercase `"false"` / `"true"` (its `re.DOTALL` flag
is irrelevant to literal patterns), then the same digit substitutions. -/
def quoting_repair_user (l : List Char) : List Char :=
  subEndDigits (subStartDigits (subMidDigits
    (subCommaTrue false (",\"true\"").data (subCommaFalse false (",\"false\"").data l))))

/-- hasFalseMatch scans for a position where the `,false` pattern of
`subCommaFalse` would match. -/
def hasFalseMatch (ci : Bool) : List Char → Bool
  | ',' :: c1 :: c2 :: c3 :: c4 :: c5 :: rest =>
      (eqc ci c1 'f' && eqc ci c2 'a' && eqc ci c3 'l' && eqc ci c4 's' && eqc ci c5 'e')
        || hasFalseMatch ci (c1 :: c2 :: c3 :: c4 :: c5 :: rest)
  | _ :: rest => hasFalseMatch ci rest
  | [] => false

/-- hasTrueMatch scans for a position where the `,true` pattern of
`subCommaTrue` would match. -/
def hasTrueMatch (ci : Bool) : List Char → Bool
  | ',' :: c1 :: c2 :: c3 :: c4 :: rest =>
      (eqc ci c1 't' && eqc ci c2 'r' && eqc ci c3 'u' && eqc ci c4 'e')
        || hasTrueMatch ci (c1 :: c2 :: c3 :: c4 :: rest)
  | _ :: rest => hasTrueMatch ci rest
  | [] => false

/-- hasMidMatch mirrors `sub1aux` and reports whether the
comma-digits-comma pattern matches anywhere from the given state. -/
def hasMidMatch : Option (List Char) → List Char → Bool
  | none, [] => false
  | none, c :: rest => if c = ',' then hasMidMatch (some []) rest else hasMidMatch none rest
  | some _, [] => false
  | some ds, c :: rest =>
      if c.isDigit then hasMidMatch (some (ds ++ [c])) rest
      else if c = ',' then
        if ds = [] then hasMidMatch (some []) rest else true
      else hasMidMatch none rest

/-- dictInsert embeds one Python dict assignment `d[k] = v` on an
insertion-ordered association list: an existing key keeps its position and
gets the new value, a new key is appended. -/
def dictInsert : List (String × PValue) → String × PValue → List (String × PValue)
  | [], kv => [kv]
  | (k', v') :: rest, (k, v) =>
      if k' = k then (k', v) :: rest else (k', v') :: dictInsert rest (k, v)

/-- dictOfPairs embeds Python's `dict(pairs)` / a `d[k] = v` loop over
`pairs` (insertion order preserved, later duplicates overwrite). -/
def dictOfPairs (pairs : List (String × PValue)) : List (String × PValue) :=
  pairs.foldl dictInsert []

/-- processValue embeds the per-element step of `process_response_values`
(ppms.py lines 47-52): strip surrounding double quotes, then coerce the
exact strings `true` / `false` to booleans. -/
def processValue (l : List Char) : PValue :=
  let s := stripQuotes l
  if s = "true".data then .bool true
  else if s = "false".data then .bool false
  else .str ⟨s⟩

/-- process_response_values embeds the whole in-place processing loop of
ppms.py lines 29-52 (the embedding returns the new list instead of
mutating). -/
def process_response_values (values : List (List Char)) : List PValue :=
  values.map processValue

/-- dict_from_single_response embeds `dict_from_single_response`
(ppms.py lines 54-115).  All exceptions raised inside the `try` block are
caught and re-raised as `ValueError` with a wrapper message; the embedding
prefixes `wrapped:` to the inner message instead of interpolating the full
response text.  The final `dict(zip(header, data))` happens outside the
`try` and cannot fail. -/
def dict_from_single_response (text : String) (graceful : Bool) :
    Except String (List (String × PValue)) :=
  let lines := pySplitlines text.data
  let inner : Except String (List (String × PValue)) :=
    if lines.length ≠ 2 ∧ graceful = false then
      .error "Invalid response format!"
    else
      match lines with
      | l0 :: l1 :: _ =>
          let header := (splitChar ',' l0).map (fun h => (⟨h⟩ : String))
          let data := process_response_values (splitChar ',' l1)
          if header.length ≠ data.length then
            if graceful = false then .error "Splitting CSV data failed"
            else
              let minimum := min header.length data.length
              let header' := if minimum < header.length then header.take minimum else header
              let data' := if minimum < header.length then data else data.take minimum
              .ok (dictOfPairs (header'.zip data'))
          else .ok (dictOfPairs (header.zip data))
      | _ => .error "IndexError: list index out of range"
  inner.mapError (fun e => "wrapped: " ++ e)

/-- coerceCapTF embeds the value coercion loops of `get_systems`
(ppms.py lines 525-528) and `get_running_sheet` (lines 856-859), which
convert the exact capitalized strings `True` / `False` (as produced by
Quoting Repair) to booleans and leave everything else a string. -/
def coerceCapTF (l : List Char) : PValue :=
  if l = "True".data then .bool true
  else if l = "False".data then .bool false
  else .str ⟨l⟩

/-- coerceLowTF embeds the value coercion loop of `get_ppms_user`
(ppms.py lines 966-974), which converts the exact lowercase strings
`true` / `false` to booleans and leaves everything else a string. -/
def coerceLowTF (l : List Char) : PValue :=
  if l = "true".data then .bool true
  else if l = "false".data then .bool false
  else .str ⟨l⟩

/-- Dt models a Python `datetime.datetime` as an abstract integer
calendar-day index plus the time-of-day fields.  The source only replaces
time-of-day fields (`datetime.replace`), adds whole days
(`timedelta(days=1)`) and adds minutes (`timedelta(minutes=m)`), so no
month/year structure is needed: `day + 1` is the next calendar day. -/
structure Dt where
  day : Int
  hour : Int
  minute : Int
  second : Int
  microsecond : Int
deriving DecidableEq

/-- Dt.replaceSM embeds `d.replace(second=0, microsecond=0)` (always
valid). -/
def Dt.replaceSM (d : Dt) : Dt :=
  { d with second := 0, microsecond := 0 }

/-- Dt.replaceHM embeds `d.replace(hour=h, minute=m)`, which raises
`ValueError` when a field is out of range. -/
def Dt.replaceHM (d : Dt) (h m : Int) : Option Dt :=
  if 0 ≤ h ∧ h ≤ 23 ∧ 0 ≤ m ∧ m ≤ 59 then some { d with hour := h, minute := m } else none

/-- Dt.replaceHMSM0 embeds
`d.replace(hour=h, minute=m, second=0, microsecond=0)`. -/
def Dt.replaceHMSM0 (d : Dt) (h m : Int) : Option Dt :=
  if 0 ≤ h ∧ h ≤ 23 ∧ 0 ≤ m ∧ m ≤ 59 then
    some { d with hour := h, minute := m, second := 0, microsecond := 0 }
  else none

/-- Dt.addDays embeds `d + timedelta(days=n)`. -/
def Dt.addDays (d : Dt) (n : Int) : Dt :=
  { d with day := d.day + n }

/-- Dt.addMinutes embeds `d + timedelta(minutes=m)`, carrying into hours
and days; seconds and microseconds are unchanged (the source always
zeroes them first). -/
def Dt.addMinutes (d : Dt) (m : Int) : Dt :=
  let total := d.day * 1440 + d.hour * 60 + d.minute + m
  { d with day := total / 1440, hour := (total % 1440) / 60, minute := total % 60 }

/-- User embeds the `User` class of `resources/Objects.py` (lines
337-400): `rawFullname` is the stored `_fullname`, the display `fullname`
is the property below.  `expiry_days`, `email` and `active` play no role
in the verified claims but are kept as data. -/
structure User where
  username : String
  rawFullname : String
  email : String
  ppms_fullname : Option String := none
  ppms_group : Option PValue := none
  active : Bool := true
deriving DecidableEq

/-- User.fullname embeds the `fullname` property of `User`
(Objects.py lines 365-371): fall back to the username when the stored
fullname is blank. -/
def User.fullname (u : User) : String :=
  if u.rawFullname = "" then u.username else u.rawFullname

/-- PpmsSystem models the system record handled by
`PpmsConnection.get_running_sheet`.  Modelled from the spec: the class
itself lives in the `pumapy/system.py` module, which is not part of the
sources; spec §3 gives its shape, of which only the fields the
running-sheet reconstruction reads (`system_id`, `name`,
`machine_catalogue`) are kept. -/
structure PpmsSystem where
  system_id : Int
  name : String
  machine_catalogue : Option String := none
deriving DecidableEq

/-- Reservation embeds the `Reservation` class of `resources/Objects.py`
(lines 407-456); `get_running_sheet` passes `system.system_id` as its
`ppms_system` argument. -/
structure Reservation where
  username : String
  ppms_system : Int
  machine_catalogue : Option String
  reservation_start : Dt
  reservation_end : Dt
deriving DecidableEq

/-- get_ppms_user_with_fullname embeds the matching loop of
`PpmsConnection.__get_ppms_user_with_fullname` (ppms.py lines 999-1013)
over a given collection of known users (the collection itself is supplied
by a collaborator; spec §6 treats user lookup as an external interface).
Python compares the queried value (which the running sheet supplies as a
parsed cell, possibly a boolean) with string attributes, so the target is
a `PValue` and a boolean target matches nothing.  For each user in order:
when `ppms_fullname` is set, only it is compared; otherwise the display
`fullname` is compared; the first user passing its own comparison is
returned. -/
def get_ppms_user_with_fullname (users : List User) (target : PValue) : Option User :=
  match users with
  | [] => none
  | u :: rest =>
      match u.ppms_fullname with
      | some p => if target = .str p then some u else get_ppms_user_with_fullname rest target
      | none =>
          if target = .str u.fullname then some u
          else get_ppms_user_with_fullname rest target

/-- resolve_fullname_spec restates the spec's words for the fullname
lookup (spec §4.5 step 3 and claim C7): first try an exact match against
`ppms_fullname` over the known users; only when no user has that field
set and matching, fall back to an exact match against the display
`fullname`.  This definition follows the specification text, for
comparison with `get_ppms_user_with_fullname`, which follows the code. -/
def resolve_fullname_spec (users : List User) (target : PValue) : Option User :=
  match users.find? (fun u => match u.ppms_fullname with
      | some p => target = .str p
      | none => false) with
  | some u => some u
  | none => users.find? (fun u => target = .str u.fullname)

/-- parseHourMinute embeds the pair of conversions
`int(value.split(':')[0])`, `int(value.split(':')[1])` applied to a
running-sheet time cell: no second chunk raises `IndexError`, a malformed
chunk raises `ValueError` (both give `none` here). -/
def parseHourMinute (s : String) : Option (Int × Int) :=
  match splitChar ':' s.data with
  | p0 :: p1 :: _ =>
      match pyInt p0, pyInt p1 with
      | some h, some m => some (h, m)
      | _, _ => none
  | _ => none

/-- resTimesFromParts embeds the timestamp construction of
`get_running_sheet` (ppms.py lines 891-916) given the already-parsed
hour/minute parts: `start` and `end` via one `replace` each, then
`reservation_start` / `reservation_end` via `replace(second=0,
microsecond=0)` followed by `replace(hour=..., minute=...)`, then the
midnight rule: when the end parts are exactly 00:00, one day is added to
`reservation_end`.  The value returned is the pair the `Reservation`
constructor receives: `start` and the rolled `reservation_end`
(`end` and `reservation_start` are computed but unused by the source;
they are kept because their `replace` calls can raise). -/
def resTimesFromParts (date : Dt) (sh sm eh em : Int) : Option (Dt × Dt) := do
  let start ← date.replaceHMSM0 sh sm
  let _endUnused ← date.replaceHMSM0 eh em
  let _rsUnused ← (date.replaceSM).replaceHM sh sm
  let re1 ← (date.replaceSM).replaceHM eh em
  let re2 := if eh = 0 ∧ em = 0 then re1.addDays 1 else re1
  pure (start, re2)

/-- rowValues embeds the value extraction applied to one data line of a
`get_systems` / `get_running_sheet` response (ppms.py lines 848-851):
split on `","`, then strip the leading quote of the first value and the
trailing quote of the last value (`values[0] = values[0][1:]`,
`values[-1] = values[-1][:-1]`; Python slicing is total). -/
def rowValues (line : List Char) : List (List Char) :=
  let vs := splitQCQ line
  let vs1 := vs.modifyHead (List.drop 1)
  vs1.dropLast ++ (vs1.getLast?.map List.dropLast).toList

/-- zipHeaders embeds the `for index, header in enumerate(headers):
d[header] = values[index]` loops: `IndexError` (here `none`) when the
values run out before the headers; surplus values are ignored. -/
def zipHeaders (headers : List String) (values : List PValue) :
    Option (List (String × PValue)) :=
  if headers.length ≤ values.length then
    some (dictOfPairs (headers.zip values))
  else none

/-- processRow embeds one iteration of the reconstruction loop of
`PpmsConnection.get_running_sheet` (ppms.py lines 847-924) on one data
line.  `systems` stands for `self.get_systems()` (the loop of
`__get_system_with_name`, lines 616-629, is inlined as `find?` on exact
name equality) and `users` for the collection scanned by
`__get_ppms_user_with_fullname`.  `mysqlLookup` models the MySQL-backed
`Common.get_user_from_fullname` collaborator.  Modelled from the spec:
the MySQL user directory is an out-of-scope external collaborator (spec
§1, §6) reached through a connection attribute that callers outside these
sources set; it is modelled as an optional lookup function, `none`
meaning no MySQL connection.  A result of `ok none` is the loop's
`continue`; `error` is an uncaught Python exception, which aborts the
whole reconstruction. -/
def processRow (systems : List PpmsSystem) (users : List User)
    (mysqlLookup : Option (PValue → Option User)) (vampOnly : Bool) (date : Dt)
    (headers : List String) (line : List Char) : Except String (Option Reservation) := do
  let values := (rowValues line).map coerceCapTF
  let some booking := zipHeaders headers values
    | throw "IndexError: list index out of range"
  let some obj := booking.lookup "Object" | throw "KeyError: Object"
  let system := systems.find? fun s => obj = PValue.str s.name
  if vampOnly then
    let some s := system
      | throw "AttributeError: NoneType has no attribute machine_catalogue"
    if s.machine_catalogue = none then
      return none
  let some userfullname := booking.lookup "User" | throw "KeyError: User"
  let user0 : Option User :=
    match mysqlLookup with
    | some f => f userfullname
    | none => none
  let user ← (match user0 with
    | none =>
        let u := get_ppms_user_with_fullname users userfullname
        match u, mysqlLookup with
        | some _, some _ =>
            match system with
            | none =>
                Except.error "AttributeError: NoneType has no attribute machine_catalogue"
            | some _ => Except.ok u
        | _, _ => Except.ok u
    | some u0 => Except.ok (some u0))
  let some st := booking.lookup "Start time" | throw "KeyError: Start time"
  let some et := booking.lookup "End time" | throw "KeyError: End time"
  let PValue.str sStr := st | throw "AttributeError: NoneType or bool has no attribute split"
  let PValue.str eStr := et | throw "AttributeError: NoneType or bool has no attribute split"
  let some (sh, sm) := parseHourMinute sStr | throw "ValueError or IndexError: time parts"
  let some (eh, em) := parseHourMinute eStr | throw "ValueError or IndexError: time parts"
  let some (startT, resEnd) := resTimesFromParts date sh sm eh em
    | throw "ValueError: hour or minute out of range"
  let some u := user | throw "AttributeError: NoneType has no attribute username"
  let some s := system | throw "AttributeError: NoneType has no attribute system_id"
  return some ⟨u.username, s.system_id, s.machine_catalogue, startT, resEnd⟩

/-- processRows folds `processRow` over the data lines in order; a row
error aborts everything (a Python exception propagates out of the loop),
a skipped row contributes nothing. -/
def processRows (systems : List PpmsSystem) (users : List User)
    (mysqlLookup : Option (PValue → Option User)) (vampOnly : Bool) (date : Dt)
    (headers : List String) : List (List Char) → Except String (List Reservation)
  | [] => .ok []
  | line :: rest => do
      let r? ← processRow systems users mysqlLookup vampOnly date headers line
      let rs ← processRows systems users mysqlLookup vampOnly date headers rest
      match r? with
      | none => pure rs
      | some r => pure (r :: rs)

/-- get_running_sheet embeds the response processing of
`PpmsConnection.get_running_sheet` (ppms.py lines 828-925), from the raw
response text to the reservation array: Quoting Repair, the empty-text
check, header extraction with whitespace stripping, then the per-row
reconstruction loop. -/
def get_running_sheet (systems : List PpmsSystem) (users : List User)
    (mysqlLookup : Option (PValue → Option User)) (vampOnly : Bool) (date : Dt)
    (responseText : String) : Except String (List Reservation) :=
  let text := quoting_repair responseText.data
  if text = [] then .ok []
  else
    match pySplitlines text with
    | [] => .error "IndexError: list index out of range"
    | headerLine :: dataLines =>
        let headers := (splitChar ',' headerLine).map (fun h => (⟨pyStripWS h⟩ : String))
        processRows systems users mysqlLookup vampOnly date headers dataLines

/-- parse_user_info embeds the parsing part of
`PpmsConnection.get_ppms_user` (ppms.py lines 950-974): the
case-sensitive Quoting Repair variant, header extraction with whitespace
stripping, the `","` split with first/last quote removal, and the
lowercase boolean coercion; `none` stands for the `IndexError` raised on
fewer than two lines or too few values. -/
def parse_user_info (text : String) : Option (List (String × PValue)) :=
  let t := quoting_repair_user text.data
  match pySplitlines t with
  | l0 :: l1 :: _ =>
      let headers := (splitChar ',' l0).map (fun h => (⟨pyStripWS h⟩ : String))
      let values := (rowValues l1).map coerceLowTF
      zipHeaders headers values
  | _ => none

/-- build_ppms_user embeds the record construction of
`PpmsConnection.get_ppms_user` (ppms.py lines 976-985) plus the `User`
constructor it calls (Objects.py lines 339-359): the display fullname is
`'%s %s' % (fname, lname)`, the PPMS fullname is
`'%s %s' % (lname, fname)`; a missing key is a `KeyError` and an empty
login fails the constructor's assertion (both give `none`). -/
def build_ppms_user (info : List (String × PValue)) : Option User := do
  let fname ← info.lookup "fname"
  let lname ← info.lookup "lname"
  let login ← info.lookup "login"
  let email ← info.lookup "email"
  let unitlogin ← info.lookup "unitlogin"
  let fullname := pvRepr fname ++ " " ++ pvRepr lname
  let ppmsFull := pvRepr lname ++ " " ++ pvRepr fname
  if login = PValue.str "" then none
  else
    some { username := pvRepr login, rawFullname := fullname, email := pvRepr email,
           ppms_fullname := some ppmsFull, ppms_group := some unitlogin }

/-- get_ppms_user embeds `PpmsConnection.get_ppms_user` on a given
response text. -/
def get_ppms_user (text : String) : Option User :=
  (parse_user_info text).bind build_ppms_user

/-- BookingDict embeds the dictionary returned by
`PpmsConnection.get_next_booking` (ppms.py lines 732-759). -/
structure BookingDict where
  user : String
  start : Dt
  minutes_until_start : Int
  session : String
deriving DecidableEq

/-- get_next_booking embeds the response processing of
`PpmsConnection.get_next_booking` (ppms.py lines 749-759): an empty
response (no lines at all) yields `None`; otherwise the three lines
username / minutes offset / session id are read, `now` standing for
`datetime.now()`. -/
def get_next_booking (now : Dt) (text : String) : Except String (Option BookingDict) :=
  match pySplitlines text.data with
  | [] => .ok none
  | l0 :: rest =>
      match rest with
      | l1 :: rest2 =>
          match pyInt l1 with
          | none => .error "ValueError: invalid literal for int()"
          | some m =>
              match rest2 with
              | l2 :: _ => .ok (some ⟨⟨l0⟩, (now.replaceSM).addMinutes m, m, ⟨l2⟩⟩)
              | [] => .error "IndexError: list index out of range"
      | [] => .error "IndexError: list index out of range"

/-- pendingChars is the text a pending `sub1aux` state stands for. -/
def pendingChars : Option (List Char) → List Char
  | none => []
  | some ds => ',' :: ds

/-- digit_enum enumerates the ten ASCII digit characters. -/
theorem digit_enum (c : Char) (h : c.isDigit = true) :
    c = '0' ∨ c = '1' ∨ c = '2' ∨ c = '3' ∨ c = '4' ∨ c = '5' ∨ c = '6' ∨ c = '7' ∨
    c = '8' ∨ c = '9' := by
  simp [Char.isDigit] at h
  obtain ⟨h1, h2⟩ := h
  have n1 : 48 ≤ c.val.toNat := h1
  have n2 : c.val.toNat ≤ 57 := h2
  have hc : ∀ d : Char, c.val.toNat = d.val.toNat → c = d := fun d hd =>
    Char.ext (UInt32.ext hd)
  interval_cases hn : c.val.toNat
  · exact Or.inl (hc _ (by decide))
  · exact Or.inr (Or.inl (hc _ (by decide)))
  · exact Or.inr (Or.inr (Or.inl (hc _ (by decide))))
  · exact Or.inr (Or.inr (Or.inr (Or.inl (hc _ (by decide)))))
  · exact Or.inr (Or.inr (Or.inr (Or.inr (Or.inl (hc _ (by decide))))))
  · exact Or.inr (Or.inr (Or.inr (Or.inr (Or.inr (Or.inl (hc _ (by decide)))))))
  · exact Or.inr (Or.inr (Or.inr (Or.inr (Or.inr (Or.inr (Or.inl (hc _ (by decide))))))))
  · exact Or.inr (Or.inr (Or.inr (Or.inr (Or.inr (Or.inr (Or.inr (Or.inl (hc _ (by decide)))))))))
  · exact Or.inr (Or.inr (Or.inr (Or.inr (Or.inr (Or.inr (Or.inr (Or.inr (Or.inl
      (hc _ (by decide))))))))))
  · exact Or.inr (Or.inr (Or.inr (Or.inr (Or.inr (Or.inr (Or.inr (Or.inr (Or.inr
      (hc _ (by decide))))))))))

/-- splitChar never returns the empty list of segments. -/
theorem splitChar_ne_nil (sep : Char) (l : List Char) : splitChar sep l ≠ [] := by
  cases l with
  | nil => simp [splitChar]
  | cons c rest =>
      simp only [splitChar]
      rcases splitChar sep rest with _ | ⟨h0, t0⟩
      · simp
      · dsimp only
        split <;> simp

/-- joinChar_splitChar: joining the split segments reproduces the text,
so a substitution that fixes every segment fixes the text. -/
theorem joinChar_splitChar (sep : Char) (l : List Char) :
    joinChar sep (splitChar sep l) = l := by
  induction l with
  | nil => rfl
  | cons c rest ih =>
      simp only [splitChar]
      rcases hs : splitChar sep rest with _ | ⟨h0, t0⟩
      · exact absurd hs (splitChar_ne_nil sep rest)
      · rw [hs] at ih
        dsimp only
        by_cases hc : c = sep
        · rw [if_pos hc]
          subst hc
          rw [joinChar]
          simpa using ih
        · rw [if_neg hc]
          cases t0 with
          | nil =>
              rw [joinChar] at ih ⊢
              simp [ih]
          | cons t1 ts =>
              rw [joinChar] at ih ⊢
              simp [ih]

/-- subCommaFalse_id: without a `,false` match the scanner copies its
input unchanged. -/
theorem subCommaFalse_id (ci : Bool) (repl : List Char) (l : List Char)
    (h : hasFalseMatch ci l = false) : subCommaFalse ci repl l = l := by
  induction l using subCommaFalse.induct ci repl with
  | case1 c1 c2 c3 c4 c5 rest hg ih =>
      rw [hasFalseMatch] at h
      simp [hg] at h
  | case2 c1 c2 c3 c4 c5 rest hg ih =>
      rw [hasFalseMatch] at h
      simp [hg] at h
      rw [subCommaFalse, if_neg (by simp [hg]), ih h]
  | case3 c rest hne ih =>
      rw [hasFalseMatch.eq_2 ci c rest hne] at h
      rw [subCommaFalse.eq_2 ci repl c rest hne, ih h]
  | case4 => rfl

/-- subCommaTrue_id: without a `,true` match the scanner copies its input
unchanged. -/
theorem subCommaTrue_id (ci : Bool) (repl : List Char) (l : List Char)
    (h : hasTrueMatch ci l = false) : subCommaTrue ci repl l = l := by
  induction l using subCommaTrue.induct ci repl with
  | case1 c1 c2 c3 c4 rest hg ih =>
      rw [hasTrueMatch] at h
      simp [hg] at h
  | case2 c1 c2 c3 c4 rest hg ih =>
      rw [hasTrueMatch] at h
      simp [hg] at h
      rw [subCommaTrue, if_neg (by simp [hg]), ih h]
  | case3 c rest hne ih =>
      rw [hasTrueMatch.eq_2 ci c rest hne] at h
      rw [subCommaTrue.eq_2 ci repl c rest hne, ih h]
  | case4 => rfl

/-- sub1aux_id: without a comma-digits-comma match the scanner emits its
pending state and copies the rest unchanged. -/
theorem sub1aux_id (st : Option (List Char)) (l : List Char)
    (h : hasMidMatch st l = false) : sub1aux st l = pendingChars st ++ l := by
  induction st, l using sub1aux.induct <;>
    simp_all [sub1aux, hasMidMatch, pendingChars]

/-- subMidDigits_id: the mid-line digit quoting is the identity on texts
without a comma-digits-comma occurrence. -/
theorem subMidDigits_id (l : List Char) (h : hasMidMatch none l = false) :
    subMidDigits l = l :=
  sub1aux_id none l h

/-- map_id_of_mem: mapping a function that fixes every member fixes the
list. -/
theorem map_id_of_mem {α : Type} (f : α → α) (l : List α) (h : ∀ x ∈ l, f x = x) :
    l.map f = l := by
  induction l with
  | nil => rfl
  | cons a t ih =>
      simp only [List.map_cons, h a (by simp)]
      rw [ih]
      intro x hx
      exact h x (by simp [hx])

/-- subStartDigits_id: the start-of-line digit quoting is the identity
when no segment starts with digits-then-comma. -/
theorem subStartDigits_id (l : List Char)
    (h : (splitChar '\n' l).all (fun seg => !segStartHit seg) = true) :
    subStartDigits l = l := by
  unfold subStartDigits
  have hmap : (splitChar '\n' l).map fixStart = splitChar '\n' l := by
    apply map_id_of_mem
    intro seg hseg
    have := List.all_eq_true.mp h seg hseg
    simp only [Bool.not_eq_true'] at this
    simp [fixStart, this]
  rw [hmap, joinChar_splitChar]

/-- subEndDigits_id: the end-of-line digit quoting is the identity when
no segment ends with comma-then-digits. -/
theorem subEndDigits_id (l : List Char)
    (h : (splitChar '\n' l).all (fun seg => !segEndHit seg) = true) :
    subEndDigits l = l := by
  unfold subEndDigits
  have hmap : (splitChar '\n' l).map fixEnd = splitChar '\n' l := by
    apply map_id_of_mem
    intro seg hseg
    have := List.all_eq_true.mp h seg hseg
    simp only [Bool.not_eq_true'] at this
    simp [fixEnd, this]
  rw [hmap, joinChar_splitChar]

/-- dictInsert_append: inserting a fresh key appends it. -/
theorem dictInsert_append (acc : List (String × PValue)) (k : String) (v : PValue)
    (h : ∀ p ∈ acc, p.1 ≠ k) : dictInsert acc (k, v) = acc ++ [(k, v)] := by
  induction acc with
  | nil => rfl
  | cons p t ih =>
      obtain ⟨k', v'⟩ := p
      rw [dictInsert, if_neg (h (k', v') (by simp)), ih]
      · simp
      · intro q hq
        exact h q (by simp [hq])

/-- foldl_dictInsert: repeated dict assignment of pairwise-fresh keys,
none already present, is plain concatenation. -/
theorem foldl_dictInsert (l acc : List (String × PValue))
    (hd : ∀ p ∈ l, ∀ q ∈ acc, q.1 ≠ p.1) (hn : (l.map Prod.fst).Nodup) :
    l.foldl dictInsert acc = acc ++ l := by
  induction l generalizing acc with
  | nil => simp
  | cons p t ih =>
      obtain ⟨k, v⟩ := p
      simp only [List.map_cons, List.nodup_cons] at hn
      obtain ⟨hk, hn2⟩ := hn
      rw [List.foldl_cons, dictInsert_append acc k v]
      · rw [ih]
        · simp
        · intro p hp q hq
          simp only [List.mem_append, List.mem_singleton] at hq
          rcases hq with hq | hq
          · exact hd p (by simp [hp]) q hq
          · subst hq
            intro he
            apply hk
            have he2 : k = p.1 := he
            rw [he2]
            exact List.mem_map_of_mem Prod.fst hp
        · exact hn2
      · intro q hq
        exact hd (k, v) (by simp) q hq

/-- dictOfPairs_eq_self: building a Python dict from pairs with pairwise
distinct keys preserves the pair list exactly (order and values). -/
theorem dictOfPairs_eq_self (l : List (String × PValue))
    (hn : (l.map Prod.fst).Nodup) : dictOfPairs l = l := by
  unfold dictOfPairs
  rw [foldl_dictInsert l [] (by simp) hn]
  simp

/-- Claim C2: for every running-sheet row reconstructed against a
reference date (via `resTimesFromParts`, the timestamp constructor used by
`get_running_sheet` / `processRow`), a parsed end time of exactly 00:00
produces an end timestamp at midnight of the reference date plus one day,
any other end time produces an end timestamp on the reference date itself
with that clock time, and the start timestamp always stays on the
reference date with the parsed start clock time, unshifted by the
rollover rule. -/
theorem running_sheet_midnight_rollover (date : Dt) (sh sm eh em : Int) (s e : Dt)
    (h : resTimesFromParts date sh sm eh em = some (s, e)) :
    (s.day = date.day ∧ s.hour = sh ∧ s.minute = sm ∧ s.second = 0 ∧ s.microsecond = 0) ∧
    ((eh = 0 ∧ em = 0) → (e.day = date.day + 1 ∧ e.hour = 0 ∧ e.minute = 0)) ∧
    (¬(eh = 0 ∧ em = 0) → (e.day = date.day ∧ e.hour = eh ∧ e.minute = em)) := by
  unfold resTimesFromParts at h
  simp only [Dt.replaceHMSM0, Dt.replaceHM, Dt.replaceSM, Option.bind_eq_bind] at h
  split_ifs at h with hv1 hv2 hmid <;>
    simp only [Option.some_bind, Option.none_bind] at h
  · injection h with hpair
    injection hpair with hs he
    subst hs
    subst he
    exact ⟨by simp, fun _ => by simp [Dt.addDays, hmid.1, hmid.2], fun hc => absurd hmid hc⟩
  · injection h with hpair
    injection hpair with hs he
    subst hs
    subst he
    exact ⟨by simp, fun hc => absurd hc hmid, fun _ => by simp⟩
  all_goals exact Option.noConfusion h

/-- Witness for C2: the 22:00-00:00 booking on day 200 ends at midnight of
day 201 and starts on day 200, and the 23:59 end stays on day 200. -/
theorem running_sheet_midnight_rollover_witness :
    (resTimesFromParts ⟨200, 12, 34, 56, 78⟩ 22 0 0 0 =
      some (⟨200, 22, 0, 0, 0⟩, ⟨201, 0, 0, 0, 0⟩)) ∧
    ((201 : Int) = 200 + 1) ∧
    (resTimesFromParts ⟨200, 12, 34, 56, 78⟩ 22 0 23 59 =
      some (⟨200, 22, 0, 0, 0⟩, ⟨200, 23, 59, 0, 0⟩)) ∧
    (⟨200, 23, 59, 0, 0⟩ : Dt).day = (⟨200, 12, 34, 56, 78⟩ : Dt).day := by
  have h1 := running_sheet_midnight_rollover ⟨200, 12, 34, 56, 78⟩ 22 0 0 0
    ⟨200, 22, 0, 0, 0⟩ ⟨201, 0, 0, 0, 0⟩ (by decide)
  have h2 := running_sheet_midnight_rollover ⟨200, 12, 34, 56, 78⟩ 22 0 23 59
    ⟨200, 22, 0, 0, 0⟩ ⟨200, 23, 59, 0, 0⟩ (by decide)
  exact ⟨by decide, (h1.2.1 ⟨rfl, rfl⟩).1, by decide, (h2.2.2 (by decide)).1⟩

/-- Claim C3: for a two-line response whose header field count differs
from its data field count, `dict_from_single_response` raises (an error
wrapping `Splitting CSV data failed`) in strict mode, and in graceful mode
truncates the longer of the two processed field lists to the shorter
one's length and returns the dict of the zip of the truncated header
names with the truncated data values. -/
theorem single_record_mismatch (text : String) (h d : List Char)
    (hsplit : pySplitlines text.data = [h, d])
    (hlen : (splitChar ',' h).length ≠ (splitChar ',' d).length) :
    dict_from_single_response text false = .error "wrapped: Splitting CSV data failed" ∧
    dict_from_single_response text true =
      .ok (dictOfPairs
        ((((splitChar ',' h).map (fun f => (⟨f⟩ : String))).take
            (min (splitChar ',' h).length (splitChar ',' d).length)).zip
          ((process_response_values (splitChar ',' d)).take
            (min (splitChar ',' h).length (splitChar ',' d).length)))) := by
  constructor
  · unfold dict_from_single_response
    rw [hsplit]
    simp [process_response_values, hlen, Except.mapError]
  · unfold dict_from_single_response
    rw [hsplit]
    simp only [List.length_cons, List.length_nil, process_response_values]
    rw [if_neg (by simp)]
    rw [if_pos (by simpa using hlen)]
    rw [if_neg (by simp : ¬(true = false))]
    set H := (splitChar ',' h).map (fun f => (⟨f⟩ : String)) with hH
    set D := (splitChar ',' d).map processValue with hD
    have hHl : H.length = (splitChar ',' h).length := by simp [hH]
    have hDl : D.length = (splitChar ',' d).length := by simp [hD]
    by_cases hc : min H.length D.length < H.length
    · rw [if_pos hc, if_pos hc]
      have hmin : H.length ⊓ D.length = D.length := by omega
      simp only [← hHl, ← hDl, hmin, List.take_length, Except.mapError]
    · rw [if_neg hc, if_neg hc]
      have hmin : H.length ⊓ D.length = H.length := by omega
      simp only [← hHl, ← hDl, hmin, List.take_length, Except.mapError]

/-- Witness for C3: header `a,b,c` with data `"x",true` (three header
fields, two data fields) errors in strict mode and yields the two-pair
truncated zip in graceful mode. -/
theorem single_record_mismatch_witness :
    dict_from_single_response "a,b,c\n\"x\",true" false =
      .error "wrapped: Splitting CSV data failed" ∧
    dict_from_single_response "a,b,c\n\"x\",true" true =
      .ok [("a", .str "x"), ("b", .bool true)] := by
  obtain ⟨h1, h2⟩ := single_record_mismatch "a,b,c\n\"x\",true" "a,b,c".data
    "\"x\",true".data (by decide) (by decide)
  exact ⟨h1, h2.trans (by decide)⟩

/-- Claim C4: for a valid two-line response with equal header and data
field counts, `dict_from_single_response` (in either mode) returns the
dict built from the order-preserving zip of the raw header fields with
the processed data fields (quotes stripped and lowercase `true` / `false`
coerced by `process_response_values`; the header is used raw), and when
the header names are distinct that dict is literally the zip.  Re-parsing
the same text yields the same record because the parser is a pure
function of the text. -/
theorem single_record_valid_zip (text : String) (h d : List Char) (graceful : Bool)
    (hsplit : pySplitlines text.data = [h, d])
    (hlen : (splitChar ',' h).length = (splitChar ',' d).length) :
    dict_from_single_response text graceful =
      .ok (dictOfPairs (((splitChar ',' h).map (fun f => (⟨f⟩ : String))).zip
        (process_response_values (splitChar ',' d)))) ∧
    (((splitChar ',' h).map (fun f => (⟨f⟩ : String))).Nodup →
      dict_from_single_response text graceful =
        .ok (((splitChar ',' h).map (fun f => (⟨f⟩ : String))).zip
          (process_response_values (splitChar ',' d)))) := by
  have hmain : dict_from_single_response text graceful =
      .ok (dictOfPairs (((splitChar ',' h).map (fun f => (⟨f⟩ : String))).zip
        (process_response_values (splitChar ',' d)))) := by
    unfold dict_from_single_response
    rw [hsplit]
    simp [process_response_values, hlen, Except.mapError]
  refine ⟨hmain, fun hnd => ?_⟩
  rw [hmain]
  congr 1
  apply dictOfPairs_eq_self
  rw [List.map_fst_zip]
  · exact hnd
  · simp [process_response_values, hlen]

/-- Witness for C4: a valid two-field response parses to the zip with the
quoted values stripped, the boolean coerced and the header untouched. -/
theorem single_record_valid_zip_witness :
    dict_from_single_response "login,active\n\"pumapy\",true" true =
      .ok [("login", .str "pumapy"), ("active", .bool true)] := by
  have h := (single_record_valid_zip "login,active\n\"pumapy\",true" "login,active".data
    "\"pumapy\",true".data true (by decide) (by decide)).2 (by decide)
  exact h.trans (by decide)

/-- Claim C1 (divergence of the code from the spec): on a running sheet
whose first row names an unknown system (`Unknown System` is not among
the known systems) and whose second row is fully resolvable,
`get_running_sheet` does not skip the bad row — it logs and then
dereferences the unresolved `None` system when building the
`Reservation`, so the whole day's reconstruction aborts with an
`AttributeError` and the resolvable sibling row is lost; the same sibling
row alone reconstructs fine, showing only the unresolved row is at
fault. -/
theorem running_sheet_unresolved_system_aborts :
    get_running_sheet [⟨31, "Python Development System", none⟩]
      [{ username := "pumapy", rawFullname := "PumAPI Python", email := "e",
         ppms_fullname := some "Python PumAPI" }] none false ⟨200, 12, 34, 56, 78⟩
      ("Location, Start time, End time, Object, User, Training, Assisted\n" ++
       "\"VDI\",\"13:00\",\"14:00\",\"Unknown System\",\"Python PumAPI\",\"\",\"\"\n" ++
       "\"VDI\",\"18:00\",\"19:00\",\"Python Development System\",\"Python PumAPI\",\"\",\"\"\n")
      = .error "AttributeError: NoneType has no attribute system_id" ∧
    get_running_sheet [⟨31, "Python Development System", none⟩]
      [{ username := "pumapy", rawFullname := "PumAPI Python", email := "e",
         ppms_fullname := some "Python PumAPI" }] none false ⟨200, 12, 34, 56, 78⟩
      ("Location, Start time, End time, Object, User, Training, Assisted\n" ++
       "\"VDI\",\"18:00\",\"19:00\",\"Python Development System\",\"Python PumAPI\",\"\",\"\"\n")
      = .ok [⟨"pumapy", 31, none, ⟨200, 18, 0, 0, 0⟩, ⟨200, 19, 0, 0, 0⟩⟩] := by
  constructor
  · decide
  · decide

/-- Counterexample for C5: on `a,1,2,b` the Quoting Repair of
`get_systems` wraps only the first of the two comma-separated digit runs
(the match consumes the trailing comma), so the output still contains a
digit run that is comma-delimited yet unquoted — the comma-digits-comma
pattern still matches the output. -/
theorem mid_digit_quoting_counterexample :
    quoting_repair "a,1,2,b".data = "a,\"1\",2,b".data ∧
    hasMidMatch none (quoting_repair "a,1,2,b".data) = true := by
  constructor
  · decide
  · decide

/-- Claim C5 (amended): the mid-line digit quoting wraps comma-delimited
digit runs scanning left to right without overlap and each match consumes
its trailing comma, so of two digit fields separated by a single comma
only the first is wrapped by one Quoting Repair pass: for any digit
characters `d1`, `d2`, repairing `a,<d1>,<d2>,b` quotes `d1` and leaves
`d2` bare. -/
theorem quoting_repair_adjacent_digit_fields (d1 d2 : Char) (h1 : d1.isDigit = true)
    (h2 : d2.isDigit = true) :
    quoting_repair ('a' :: ',' :: d1 :: ',' :: d2 :: ',' :: 'b' :: []) =
      'a' :: ',' :: '"' :: d1 :: '"' :: ',' :: d2 :: ',' :: 'b' :: [] := by
  rcases digit_enum d1 h1 with rfl|rfl|rfl|rfl|rfl|rfl|rfl|rfl|rfl|rfl <;>
    rcases digit_enum d2 h2 with rfl|rfl|rfl|rfl|rfl|rfl|rfl|rfl|rfl|rfl <;> decide

/-- Witness for C5 (amended): at `d1 = '1'`, `d2 = '2'` the repair of
`a,1,2,b` is `a,"1",2,b`. -/
theorem quoting_repair_adjacent_digit_fields_witness :
    quoting_repair ('a' :: ',' :: '1' :: ',' :: '2' :: ',' :: 'b' :: []) =
      'a' :: ',' :: '"' :: '1' :: '"' :: ',' :: '2' :: ',' :: 'b' :: [] :=
  quoting_repair_adjacent_digit_fields '1' '2' (by decide) (by decide)

/-- Counterexample for C6: the full Quoting Repair sequence is not
idempotent: on `a,1,2,b` a second pass quotes the digit run the first
pass skipped. -/
theorem quoting_repair_not_idempotent :
    quoting_repair (quoting_repair "a,1,2,b".data) ≠ quoting_repair "a,1,2,b".data := by
  decide

/-- Claim C6 (amended): the Quoting Repair sequence applied to its own
output equals one application whenever the once-repaired text contains no
remaining substitution trigger: no case-insensitive `,false` / `,true`
occurrence, no comma-digits-comma run, no line-leading digits-comma, and
no comma-digits line end.  (The counterexample `a,1,2,b` violates the
third condition: its repaired form `a,"1",2,b` still contains `,2,`.) -/
theorem quoting_repair_idempotent_on_clean (t : List Char)
    (h1 : hasFalseMatch true (quoting_repair t) = false)
    (h2 : hasTrueMatch true (quoting_repair t) = false)
    (h3 : hasMidMatch none (quoting_repair t) = false)
    (h4 : (splitChar '\n' (quoting_repair t)).all (fun seg => !segStartHit seg) = true)
    (h5 : (splitChar '\n' (quoting_repair t)).all (fun seg => !segEndHit seg) = true) :
    quoting_repair (quoting_repair t) = quoting_repair t := by
  set s := quoting_repair t with hs
  have e1 : subCommaFalse true (",\"False\"").data s = s := subCommaFalse_id _ _ _ h1
  have e2 : subCommaTrue true (",\"True\"").data s = s := subCommaTrue_id _ _ _ h2
  have e3 : subMidDigits s = s := subMidDigits_id _ h3
  have e4 : subStartDigits s = s := subStartDigits_id _ h4
  have e5 : subEndDigits s = s := subEndDigits_id _ h5
  conv_lhs => rw [quoting_repair]
  rw [e1, e2, e3, e4, e5]

/-- Witness for C6 (amended): `a,1,b` repairs to `a,"1",b`, which has no
remaining trigger, and a second pass leaves it unchanged. -/
theorem quoting_repair_idempotent_on_clean_witness :
    quoting_repair (quoting_repair "a,1,b".data) = quoting_repair "a,1,b".data :=
  quoting_repair_idempotent_on_clean "a,1,b".data (by decide) (by decide) (by decide)
    (by decide) (by decide)

/-- Counterexample for C7: one known user whose `ppms_fullname` is set to
`Neff Basil` and whose display fullname is `Basil Neff`; querying
`Basil Neff` finds nothing in the code's resolver (a user with
`ppms_fullname` set is never matched by display name), while the spec's
ppms-first-then-display-fallback resolver returns the user. -/
theorem resolver_fallback_counterexample :
    get_ppms_user_with_fullname
      [{ username := "u1", rawFullname := "Basil Neff", email := "e",
         ppms_fullname := some "Neff Basil" }] (.str "Basil Neff") = none ∧
    resolve_fullname_spec
      [{ username := "u1", rawFullname := "Basil Neff", email := "e",
         ppms_fullname := some "Neff Basil" }] (.str "Basil Neff") =
      some { username := "u1", rawFullname := "Basil Neff", email := "e",
             ppms_fullname := some "Neff Basil" } := by
  constructor
  · decide
  · decide

/-- Claim C7 (amended): the resolver makes one ordered pass over the
known users and returns the first user whose own comparison succeeds —
`ppms_fullname` when that field is set, the display `fullname` otherwise;
it returns an absent value when no user's comparison succeeds.  There is
no two-phase ppms-first fallback across the whole collection. -/
theorem resolver_single_pass (users : List User) (target : PValue) :
    get_ppms_user_with_fullname users target =
      users.find? (fun u =>
        match u.ppms_fullname with
        | some p => target = PValue.str p
        | none => target = PValue.str u.fullname) := by
  induction users with
  | nil => rfl
  | cons u rest ih =>
      rw [get_ppms_user_with_fullname]
      cases hpf : u.ppms_fullname with
      | some p =>
          by_cases ht : target = PValue.str p
          · simp [List.find?, hpf, ht]
          · simp only [List.find?, hpf, ht]
            simp [ht, ih]
      | none =>
          by_cases ht : target = PValue.str u.fullname
          · simp [List.find?, hpf, ht]
          · simp only [List.find?, hpf]
            simp [ht, ih]

/-- Claim C8: whenever a `getuser` response parses to a record with first
name `F` and last name `L` and the user object is built from it, the
display fullname is `F L` (first, space, last) and the PPMS fullname is
`L F` (last, space, first). -/
theorem user_fullname_order (text : String) (info : List (String × PValue))
    (F L : String) (u : User)
    (hp : parse_user_info text = some info)
    (hf : info.lookup "fname" = some (PValue.str F))
    (hl : info.lookup "lname" = some (PValue.str L))
    (hu : get_ppms_user text = some u) :
    u.fullname = F ++ " " ++ L ∧ u.ppms_fullname = some (L ++ " " ++ F) := by
  unfold get_ppms_user at hu
  rw [hp] at hu
  simp only [Option.some_bind] at hu
  unfold build_ppms_user at hu
  rw [hf, hl] at hu
  simp only [Option.some_bind] at hu
  rcases hlog : info.lookup "login" with _ | login <;> rw [hlog] at hu
  · exact Option.noConfusion hu
  rcases hem : info.lookup "email" with _ | email <;> rw [hem] at hu
  · exact Option.noConfusion hu
  rcases hun : info.lookup "unitlogin" with _ | unitlogin <;> rw [hun] at hu
  · exact Option.noConfusion hu
  replace hu : (if login = PValue.str "" then (none : Option User)
      else some { username := pvRepr login,
                  rawFullname := pvRepr (PValue.str F) ++ " " ++ pvRepr (PValue.str L),
                  email := pvRepr email,
                  ppms_fullname := some (pvRepr (PValue.str L) ++ " " ++ pvRepr (PValue.str F)),
                  ppms_group := some unitlogin, active := true }) = some u := hu
  by_cases hle : login = PValue.str ""
  · rw [if_pos hle] at hu
    exact Option.noConfusion hu
  · rw [if_neg hle] at hu
    injection hu with hu2
    subst hu2
    have hne : F ++ " " ++ L ≠ "" := by
      intro hcon
      have hdata := congrArg String.data hcon
      simp at hdata
    refine ⟨?_, rfl⟩
    simp [User.fullname, pvRepr, hne]

/-- Witness for C8: the documented example user (lname `Python`, fname
`PumAPI`) yields fullname `PumAPI Python` and ppms_fullname
`Python PumAPI` through the whole `get_ppms_user` pipeline. -/
theorem user_fullname_order_witness :
    get_ppms_user "login,lname,fname,email,unitlogin\n\"pumapy\",\"Python\",\"PumAPI\",\"e\",\"g\"" =
      some { username := "pumapy", rawFullname := "PumAPI Python", email := "e",
             ppms_fullname := some "Python PumAPI", ppms_group := some (.str "g") } ∧
    ({ username := "pumapy", rawFullname := "PumAPI Python", email := "e",
       ppms_fullname := some "Python PumAPI",
       ppms_group := some (.str "g") } : User).fullname = "PumAPI" ++ " " ++ "Python" ∧
    ({ username := "pumapy", rawFullname := "PumAPI Python", email := "e",
       ppms_fullname := some "Python PumAPI",
       ppms_group := some (.str "g") } : User).ppms_fullname =
      some ("Python" ++ " " ++ "PumAPI") := by
  have h := user_fullname_order
    "login,lname,fname,email,unitlogin\n\"pumapy\",\"Python\",\"PumAPI\",\"e\",\"g\""
    [("login", .str "pumapy"), ("lname", .str "Python"), ("fname", .str "PumAPI"),
     ("email", .str "e"), ("unitlogin", .str "g")]
    "PumAPI" "Python"
    { username := "pumapy", rawFullname := "PumAPI Python", email := "e",
      ppms_fullname := some "Python PumAPI", ppms_group := some (.str "g") }
    (by decide) (by decide) (by decide) (by decide)
  exact ⟨by decide, h.1, h.2⟩

/-- Claim C9: an empty `nextbooking` response body (no lines at all)
makes `get_next_booking` return an explicit absent booking (`ok none`)
rather than raising. -/
theorem empty_booking_response (now : Dt) (text : String)
    (h : pySplitlines text.data = []) : get_next_booking now text = .ok none := by
  unfold get_next_booking
  rw [h]

/-- Witness for C9: the empty response text. -/
theorem empty_booking_response_witness :
    get_next_booking ⟨100, 10, 0, 5, 6⟩ "" = .ok none :=
  empty_booking_response ⟨100, 10, 0, 5, 6⟩ "" (by decide)

/-- Claim C10: the single-record parser's boolean coercion is
case-sensitive — a processed cell is a boolean exactly when the
quote-stripped field is the lowercase `true` or `false` — while the
Quoting Repair boolean substitutions emit capitalized `"False"` /
`"True"`, so those capitalized tokens pass through `processValue` as
plain strings. -/
theorem boolean_coercion_case_sensitive :
    (∀ l : List Char, (processValue l).isBoolB =
      (stripQuotes l == "true".data || stripQuotes l == "false".data)) ∧
    processValue "\"True\"".data = PValue.str "True" ∧
    processValue "\"False\"".data = PValue.str "False" ∧
    processValue "\"true\"".data = PValue.bool true ∧
    processValue "\"false\"".data = PValue.bool false ∧
    subCommaFalse true (",\"False\"").data ",false".data = ",\"False\"".data ∧
    subCommaTrue true (",\"True\"").data ",true".data = ",\"True\"".data := by
  refine ⟨fun l => ?_, by decide, by decide, by decide, by decide, by decide, by decide⟩
  unfold processValue PValue.isBoolB
  by_cases h1 : stripQuotes l = "true".data
  · simp [h1]
  · by_cases h2 : stripQuotes l = "false".data
    · simp [h1, h2]
    · simp [h1, h2]

end Pumapy

